import Mathlib

/-!
Verification development for the SendIt peer-to-peer file transfer core
(`src/utils/rtc.ts`, class `PeerTransfer`).

The embedding below translates the transfer protocol engine into pure Lean
definitions:

* file bytes are `List Nat`;
* the frames travelling over the data channel are the inductive `Frame`
  (a structured `file-info` message, a raw binary chunk, a structured
  `file-complete` message), matching the wire protocol of `setupDataChannel`;
* the sender (`sendFile` with its inner `sendNextChunk`/`trySend` loop) is
  modelled as the trace of events it produces on a channel with in-order
  reliable delivery whose backpressure always eventually drains — the trace
  interleaves the frames handed to the channel with the `onProgress`
  callbacks, in the exact order of the source;
* the receiver (`handleFileInfo` / `handleFileChunkBinary` /
  `handleComplete`) is a step function on the class's receiver fields
  (`incomingChunks`, `expectedChunks`, `receivingFile`);
* the signaling layer (`handleSignal`, `sendSignal`) is modelled over the
  session fields it reads and writes, with the WebRTC SDP/ICE payloads
  (produced by the browser, not by this code) abstracted away.

JavaScript `number` arithmetic on sizes, indices and percentages is modelled
by exact natural-number arithmetic (`Math.ceil(a / b)` as `(a + b - 1) / b`,
`Math.floor(a / b * 100)` as `a * 100 / b`), which agrees with IEEE doubles
throughout the ranges used here.
-/

/-- `CHUNK_SIZE` from `rtc.ts` line 9: `16 * 1024`. -/
def CHUNK_SIZE : Nat := 16 * 1024

/-- The `FileMeta` record of `rtc.ts` (lines 1-7). -/
structure FileMeta where
  fileId : String
  name : String
  size : Nat
  type : String
  totalChunks : Nat
deriving DecidableEq, Repr

/-- A `File` object as `sendFile` consumes it: a name, a MIME type and the
byte content. Its `size` is the length of the content. -/
structure FileRec where
  name : String
  type : String
  content : List Nat
deriving DecidableEq, Repr

/-- `Math.ceil(size / CHUNK_SIZE)` from `sendFile` (line 141), as exact
natural-number ceiling division. -/
def totalChunksOf (size : Nat) : Nat :=
  (size + CHUNK_SIZE - 1) / CHUNK_SIZE

/-- The byte slice `file.slice(start, end)` read for chunk `i` in
`sendNextChunk` (lines 164-166): `start = i * CHUNK_SIZE`,
`end = min(start + CHUNK_SIZE, file.size)`. -/
def fileChunk (content : List Nat) (i : Nat) : List Nat :=
  (content.drop (i * CHUNK_SIZE)).take CHUNK_SIZE

/-- The ordered sequence of chunk payloads `sendFile` reads from the file. -/
def senderChunks (content : List Nat) : List (List Nat) :=
  (List.range (totalChunksOf content.length)).map (fileChunk content)

/-- One frame on the data channel, distinguished exactly as
`setupDataChannel`'s `onmessage` distinguishes them (lines 76-84): structured
text frames `file-info` and `file-complete`, and raw binary chunk frames. -/
inductive Frame where
  | fileInfo (meta : FileMeta)
  | chunk (data : List Nat)
  | fileComplete (fileId : String)
deriving DecidableEq, Repr

/-- The metadata frame contents `sendFile` builds (lines 140-148). The
`fileId` (`Date.now().toString()` in the source) is an external clock value,
taken here as a parameter. -/
def metaOf (file : FileRec) (fileId : String) : FileMeta :=
  { fileId := fileId
    name := file.name
    size := file.content.length
    type := file.type
    totalChunks := totalChunksOf file.content.length }

/-- One observable action of the sender: a frame handed to
`dataChannel.send`, or an `onProgress` callback. -/
inductive SendEvent where
  | frameSent (f : Frame)
  | progress (p : Nat)
deriving DecidableEq, Repr

/-- The event trace of `sendFile` (lines 134-221) on a channel in the given
state, assuming the channel's backpressure always eventually drains so that
every `trySend` retry loop terminates with the chunk sent. Per the source:
if the channel is not open the call warns and returns with no events
(lines 135-138); otherwise the metadata frame is sent (line 150), then for
each chunk index `i < totalChunks` the chunk bytes are handed to the channel
(line 184) followed by `onProgress(Math.floor((i+1)/totalChunks*100))`
(lines 194-195), and after the last chunk — only if there was at least one
chunk, since the completion send sits on the post-chunk path (lines
197-201) — the `file-complete` frame is sent. -/
def senderTrace (channelOpen : Bool) (file : FileRec) (fileId : String) :
    List SendEvent :=
  if channelOpen then
    let t := totalChunksOf file.content.length
    SendEvent.frameSent (Frame.fileInfo (metaOf file fileId)) ::
      ((List.range t).flatMap fun i =>
        [SendEvent.frameSent (Frame.chunk (fileChunk file.content i)),
         SendEvent.progress ((i + 1) * 100 / t)]) ++
      (if t = 0 then [] else [SendEvent.frameSent (Frame.fileComplete fileId)])
  else []

/-- The frame component of a sender event, if any. -/
def SendEvent.frame? : SendEvent → Option Frame
  | .frameSent f => some f
  | .progress _ => none

/-- The progress value of a sender event, if any. -/
def SendEvent.progressVal? : SendEvent → Option Nat
  | .frameSent _ => none
  | .progress p => some p

/-- The frames `sendFile` hands to the channel, in order. -/
def sendFileFrames (channelOpen : Bool) (file : FileRec) (fileId : String) :
    List Frame :=
  (senderTrace channelOpen file fileId).filterMap SendEvent.frame?

/-- The `onProgress` values `sendFile` reports, in order. -/
def senderProgress (channelOpen : Bool) (file : FileRec) (fileId : String) :
    List Nat :=
  (senderTrace channelOpen file fileId).filterMap SendEvent.progressVal?

/-- Whether a frame is a binary chunk frame. -/
def Frame.isChunk : Frame → Bool
  | .chunk _ => true
  | _ => false

/-- The receiver-side fields of `PeerTransfer` (lines 24-26):
`incomingChunks`, `expectedChunks`, `receivingFile`. -/
structure ReceiverState where
  incomingChunks : List (List Nat)
  expectedChunks : Nat
  receivingFile : Option FileMeta
deriving DecidableEq, Repr

/-- The initial values of the receiver fields, which are also the values
`handleComplete` resets them to (lines 241-243). -/
def initialReceiver : ReceiverState :=
  { incomingChunks := [], expectedChunks := 0, receivingFile := none }

/-- One observable receiver callback: `onFileInfo` (the spec's
`onMetadata`), `onProgress`, or `onComplete`. -/
inductive RecvEvent where
  | fileInfo (meta : FileMeta)
  | progress (p : Nat)
  | complete (payload : List Nat) (meta : FileMeta)
deriving DecidableEq, Repr

/-- Processing of one inbound frame by the receiver, from
`handleFileInfo` (lines 223-228), `handleFileChunkBinary` (lines 230-235)
and `handleComplete` (lines 237-244). `handleFileInfo` overwrites the
transfer metadata, resets the chunk buffer and fires `onFileInfo`.
`handleFileChunkBinary` appends the chunk unconditionally and fires
`onProgress(Math.floor(len/expected*100))` with the updated length.
`handleComplete` returns without any effect when no transfer is in progress
(`receivingFile` unset); otherwise it fires `onComplete` with the
concatenation of the buffered chunks and resets the fields. The `fileId`
carried by the completion frame is ignored, as in the source. -/
def handleFrame (s : ReceiverState) : Frame → ReceiverState × List RecvEvent
  | Frame.fileInfo meta =>
      ({ incomingChunks := [], expectedChunks := meta.totalChunks,
         receivingFile := some meta },
       [RecvEvent.fileInfo meta])
  | Frame.chunk data =>
      let chunks := s.incomingChunks ++ [data]
      ({ s with incomingChunks := chunks },
       [RecvEvent.progress (chunks.length * 100 / s.expectedChunks)])
  | Frame.fileComplete _ =>
      match s.receivingFile with
      | none => (s, [])
      | some meta =>
          (initialReceiver, [RecvEvent.complete s.incomingChunks.flatten meta])

/-- Run the receiver over a list of frames delivered in order, returning the
final state and the concatenated event list. -/
def runReceiver : ReceiverState → List Frame → ReceiverState × List RecvEvent
  | s, [] => (s, [])
  | s, f :: rest =>
    let step := handleFrame s f
    let next := runReceiver step.1 rest
    (next.1, step.2 ++ next.2)

/-- The payloads of the `onComplete` events in a receiver event list. -/
def completePayloads (evs : List RecvEvent) : List (List Nat) :=
  evs.filterMap fun e =>
    match e with
    | RecvEvent.complete payload _ => some payload
    | _ => none

/-- The values of the `onProgress` events in a receiver event list. -/
def recvProgress (evs : List RecvEvent) : List Nat :=
  evs.filterMap fun e =>
    match e with
    | RecvEvent.progress p => some p
    | _ => none

/-- The kind of a signaling envelope (`rtc.ts` lines 104-110). -/
inductive SignalType where
  | offer
  | answer
  | candidate
deriving DecidableEq, Repr

/-- A signaling envelope as `handleSignal` parses it: kind, sender, intended
recipient. The `sdp` / `candidate` payloads are produced and consumed by the
browser's RTC primitive, never inspected by this code, and are abstracted
away. (`from` is a Lean keyword, hence `from'`.) -/
structure SignalMsg where
  type : SignalType
  from' : String
  to' : String
deriving DecidableEq, Repr

/-- The session-level fields of `PeerTransfer` that the signaling path reads
and writes: the immutable local id `peerId`, the optional `remoteId`, and
whether `peerConnection` has been created (`initPeerConnection` has run —
the spec's `Idle` state is its absence, `Negotiating` its presence). -/
structure SessionState where
  peerId : String
  remoteId : Option String
  peerConnection : Bool
deriving DecidableEq, Repr

/-- `handleSignal` (lines 103-132). An envelope whose `to` differs from the
local `peerId` is discarded before any processing (line 112). An `offer`
sets `remoteId` to the envelope's `from`, creates the peer connection via
`initPeerConnection(false)`, and replies with an `answer` envelope through
`sendSignal`, which stamps it `from: peerId, to: remoteId` (line 92). An
`answer` is applied to the existing peer connection (`setRemoteDescription`)
and a `candidate` to its ICE agent (`addIceCandidate`) through optional
chaining — a no-op when no peer connection exists — and neither touches any
session field. The returned list holds the envelopes sent in response. -/
def handleSignal (s : SessionState) (m : SignalMsg) :
    SessionState × List SignalMsg :=
  if m.to' ≠  s.peerId then (s, [])
  else
    match m.type with
    | SignalType.offer =>
        ({ s with remoteId := some m.from', peerConnection := true },
         [{ type := SignalType.answer, from' := s.peerId, to' := m.from' }])
    | SignalType.answer => (s, [])
    | SignalType.candidate => (s, [])

/-- `WebSocket.readyState` values. -/
inductive WsState where
  | connecting
  | open'
  | closing
  | closed
deriving DecidableEq, Repr

/-- `MAX_RETRIES` in `sendSignal` (line 88). -/
def MAX_RETRIES : Nat := 20

/-- `RETRY_DELAY` in `sendSignal` (line 89), in milliseconds. -/
def RETRY_DELAY : Nat := 100

/-- The outcome of one `sendSignal` invocation: the envelope was handed to
`ws.send` on the given attempt, or dropped (with a console warning) on the
given attempt. -/
inductive SendOutcome where
  | delivered (attempt : Nat)
  | dropped (attempt : Nat)
deriving DecidableEq, Repr

/-- The retry loop of `sendSignal` (lines 87-101), driven by the WebSocket
state observed at each attempt (`states n` is `ws.readyState` when attempt
`n` runs, attempts being 100 ms apart). If the socket is open the message is
sent at once; if it is connecting and `attempt < MAX_RETRIES` a retry is
scheduled; otherwise the message is dropped. `budget` counts the retries
still allowed (`MAX_RETRIES - attempt`), making the recursion structural;
with the budget exhausted a connecting socket drops just like a closing or
closed one, so the zero-budget case merges those branches. -/
def sendSignalGo (states : Nat → WsState) : Nat → Nat → SendOutcome
  | attempt, 0 =>
      if states attempt = WsState.open' then SendOutcome.delivered attempt
      else SendOutcome.dropped attempt
  | attempt, b + 1 =>
      if states attempt = WsState.open' then SendOutcome.delivered attempt
      else if states attempt = WsState.connecting then
        sendSignalGo states (attempt + 1) b
      else SendOutcome.dropped attempt

/-- A full `sendSignal` call: attempt 0 with `MAX_RETRIES` retries allowed. -/
def sendSignalModel (states : Nat → WsState) : SendOutcome :=
  sendSignalGo states 0 MAX_RETRIES

/-- The hard pause threshold `16 * 1024 * 1024` checked against
`bufferedAmount` in `sendNextChunk` (line 159) and `trySend` (line 178). -/
def HIGH_WATER : Nat := 16 * 1024 * 1024

/-- `dataChannel.bufferedAmountLowThreshold = 1024 * 1024` (lines 74 and
151): the level at which the channel fires `onbufferedamountlow`. -/
def bufferedAmountLowThreshold : Nat := 1024 * 1024

/-- The `trySend` retry loop for one chunk (lines 177-204), driven by the
successive `bufferedAmount` readings it observes, one per 50 ms poll:
if the reading exceeds `HIGH_WATER` the send is deferred and retried against
the next reading; at the first reading at or below `HIGH_WATER` the chunk is
handed to `dataChannel.send`. Returns the index of the reading at which the
chunk was handed over, or `none` if every reading in the (finite) window
stayed above the threshold. -/
def trySendIndex : List Nat → Option Nat
  | [] => none
  | b :: rest =>
      if b > HIGH_WATER then (trySendIndex rest).map (· + 1) else some 0

/-! ### General lemmas about the chunking and the receiver run -/

lemma fileChunk_zero (l : List Nat) : fileChunk l 0 = l.take CHUNK_SIZE := by
  simp [fileChunk]

lemma fileChunk_succ (l : List Nat) (i : Nat) :
    fileChunk l (i + 1) = fileChunk (l.drop CHUNK_SIZE) i := by
  unfold fileChunk
  rw [List.drop_drop]
  have h : CHUNK_SIZE + i * CHUNK_SIZE = (i + 1) * CHUNK_SIZE := by ring
  rw [h]

lemma join_chunks_take :
    ∀ (n : Nat) (l : List Nat),
      ((List.range n).map (fileChunk l)).flatten = l.take (n * CHUNK_SIZE) := by
  intro n
  induction n with
  | zero => intro l; simp
  | succ n ih =>
      intro l
      rw [List.range_succ_eq_map]
      simp only [List.map_cons, List.flatten_cons, List.map_map]
      have h1 : (List.range n).map (fileChunk l ∘ Nat.succ) =
          (List.range n).map (fileChunk (l.drop CHUNK_SIZE)) := by
        apply List.map_congr_left
        intro i _
        simpa [Function.comp] using fileChunk_succ l i
      rw [h1, ih, fileChunk_zero, ← List.take_add]
      have h2 : CHUNK_SIZE + n * CHUNK_SIZE = (n + 1) * CHUNK_SIZE := by ring
      rw [h2]

lemma runReceiver_append (s : ReceiverState) (xs ys : List Frame) :
    runReceiver s (xs ++ ys) =
      ((runReceiver (runReceiver s xs).1 ys).1,
       (runReceiver s xs).2 ++ (runReceiver (runReceiver s xs).1 ys).2) := by
  induction xs generalizing s with
  | nil => simp [runReceiver]
  | cons f xs ih => simp [runReceiver, ih]

lemma runReceiver_chunks (cs : List (List Nat)) :
    ∀ (acc : List (List Nat)) (e : Nat) (m : Option FileMeta),
      runReceiver ⟨acc, e, m⟩ (cs.map Frame.chunk) =
        (⟨acc ++ cs, e, m⟩,
         (List.range cs.length).map fun k =>
           RecvEvent.progress ((acc.length + k + 1) * 100 / e)) := by
  induction cs with
  | nil => intro acc e m; simp [runReceiver]
  | cons c cs ih =>
      intro acc e m
      simp only [List.map_cons, runReceiver, handleFrame]
      rw [ih (acc ++ [c]) e m]
      simp only [Prod.mk.injEq]
      refine ⟨by simp, ?_⟩
      rw [List.length_cons, List.range_succ_eq_map, List.map_cons, List.map_map]
      simp only [List.singleton_append, List.cons.injEq]
      refine ⟨by simp, ?_⟩
      apply List.map_congr_left
      intro k _
      simp only [Function.comp_apply, List.length_append, List.length_cons,
        List.length_nil]
      have h : acc.length + 1 + k + 1 = acc.length + (k + 1) + 1 := by omega
      rw [h]

lemma chunk_size_eq : CHUNK_SIZE = 16384 := by norm_num [CHUNK_SIZE]

lemma length_le_totalChunks_mul (len : Nat) :
    len ≤ totalChunksOf len * CHUNK_SIZE := by
  simp only [totalChunksOf, chunk_size_eq]
  omega

lemma senderChunks_flatten (l : List Nat) : (senderChunks l).flatten = l := by
  unfold senderChunks
  rw [join_chunks_take]
  exact List.take_of_length_le (length_le_totalChunks_mul l.length)

lemma senderChunks_length (l : List Nat) :
    (senderChunks l).length = totalChunksOf l.length := by
  simp [senderChunks]

lemma totalChunksOf_pos (len : Nat) (h : 0 < len) : 0 < totalChunksOf len := by
  simp only [totalChunksOf, chunk_size_eq]
  omega

lemma totalChunksOf_zero : totalChunksOf 0 = 0 := by
  simp only [totalChunksOf, chunk_size_eq]

lemma sendFileFrames_eq (file : FileRec) (fileId : String) :
    sendFileFrames true file fileId =
      Frame.fileInfo (metaOf file fileId) ::
        (senderChunks file.content).map Frame.chunk ++
        (if totalChunksOf file.content.length = 0 then []
         else [Frame.fileComplete fileId]) := by
  have aux : ∀ (is : List Nat),
      ((is.flatMap fun i =>
        [SendEvent.frameSent (Frame.chunk (fileChunk file.content i)),
         SendEvent.progress
           ((i + 1) * 100 / totalChunksOf file.content.length)]).filterMap
        SendEvent.frame?) =
      is.map fun i => Frame.chunk (fileChunk file.content i) := by
    intro is
    induction is with
    | nil => simp
    | cons i is ih => simp [ih, SendEvent.frame?]
  unfold sendFileFrames senderTrace
  by_cases h0 : totalChunksOf file.content.length = 0
  · simp [h0, aux, SendEvent.frame?, senderChunks, Function.comp]
  · simp [h0, aux, SendEvent.frame?, senderChunks, Function.comp]

lemma senderProgress_eq (file : FileRec) (fileId : String) :
    senderProgress true file fileId =
      (List.range (totalChunksOf file.content.length)).map fun i =>
        (i + 1) * 100 / totalChunksOf file.content.length := by
  have aux : ∀ (is : List Nat),
      ((is.flatMap fun i =>
        [SendEvent.frameSent (Frame.chunk (fileChunk file.content i)),
         SendEvent.progress
           ((i + 1) * 100 / totalChunksOf file.content.length)]).filterMap
        SendEvent.progressVal?) =
      is.map fun i => (i + 1) * 100 / totalChunksOf file.content.length := by
    intro is
    induction is with
    | nil => simp
    | cons i is ih => simp [ih, SendEvent.progressVal?]
  unfold senderProgress senderTrace
  by_cases h0 : totalChunksOf file.content.length = 0
  · simp [h0, aux, SendEvent.progressVal?]
  · simp [h0, aux, SendEvent.progressVal?]

lemma roundtrip_events (file : FileRec) (fileId : String)
    (h : file.content ≠ []) :
    runReceiver initialReceiver (sendFileFrames true file fileId) =
      (initialReceiver,
       RecvEvent.fileInfo (metaOf file fileId) ::
         ((List.range (totalChunksOf file.content.length)).map fun k =>
           RecvEvent.progress
             ((k + 1) * 100 / totalChunksOf file.content.length)) ++
         [RecvEvent.complete file.content (metaOf file fileId)]) := by
  have hpos : 0 < totalChunksOf file.content.length :=
    totalChunksOf_pos _ (List.length_pos.mpr h)
  rw [sendFileFrames_eq, if_neg (Nat.pos_iff_ne_zero.mp hpos)]
  rw [List.cons_append]
  simp only [runReceiver, handleFrame]
  rw [runReceiver_append]
  rw [runReceiver_chunks (senderChunks file.content) [] _ (some (metaOf file fileId))]
  simp only [List.nil_append, senderChunks_length, List.length_nil]
  simp only [runReceiver, handleFrame, senderChunks_flatten]
  have hm : (metaOf file fileId).totalChunks = totalChunksOf file.content.length := rfl
  simp [hm]

/-- The per-chunk percentage sequence is monotonically non-decreasing. -/
lemma progressVals_pairwise (t : Nat) :
    ((List.range t).map fun i => (i + 1) * 100 / t).Pairwise (· ≤ ·) := by
  refine List.Pairwise.map _ ?_ (List.pairwise_lt_range t)
  intro a b hab
  exact Nat.div_le_div_right (Nat.mul_le_mul_right _ (by omega))

/-- For a transfer of `n + 1` chunks, the percentage sequence contains the
value 100 exactly once (at the last chunk). -/
lemma progressVals_count_100 (n : Nat) :
    (((List.range (n + 1)).map fun i => (i + 1) * 100 / (n + 1)).count 100)
      = 1 := by
  rw [List.range_succ, List.map_append, List.count_append]
  have hlast : (n + 1) * 100 / (n + 1) = 100 :=
    Nat.mul_div_cancel_left 100 (Nat.succ_pos n)
  have hzero :
      (((List.range n).map fun i => (i + 1) * 100 / (n + 1)).count 100) = 0 := by
    rw [List.count_eq_zero]
    intro hmem
    obtain ⟨i, hi, hval⟩ := List.mem_map.mp hmem
    have hi' : i < n := List.mem_range.mp hi
    have hlt : (i + 1) * 100 / (n + 1) < 100 := by
      rw [Nat.div_lt_iff_lt_mul (Nat.succ_pos n)]
      omega
    omega
  simp [hzero, hlast]

/-- For a non-empty file, the sender trace ends with the 100% progress
report immediately followed by the completion frame: 100 is reported just
BEFORE the completion frame is queued, not after it. -/
lemma senderTrace_ends (file : FileRec) (fileId : String)
    (h : file.content ≠ []) :
    ∃ pre, senderTrace true file fileId =
      pre ++ [SendEvent.progress 100,
              SendEvent.frameSent (Frame.fileComplete fileId)] := by
  have hpos : 0 < totalChunksOf file.content.length :=
    totalChunksOf_pos _ (List.length_pos.mpr h)
  obtain ⟨n, hn⟩ := Nat.exists_eq_succ_of_ne_zero (Nat.pos_iff_ne_zero.mp hpos)
  refine ⟨SendEvent.frameSent (Frame.fileInfo (metaOf file fileId)) ::
      ((List.range n).flatMap fun i =>
        [SendEvent.frameSent (Frame.chunk (fileChunk file.content i)),
         SendEvent.progress ((i + 1) * 100 / (n + 1))]) ++
      [SendEvent.frameSent (Frame.chunk (fileChunk file.content n))], ?_⟩
  have h100 : (n + 1) * 100 / (n + 1) = 100 :=
    Nat.mul_div_cancel_left 100 (Nat.succ_pos n)
  unfold senderTrace
  rw [if_pos rfl, hn]
  simp only [Nat.succ_eq_add_one]
  rw [if_neg (by omega : ¬ n + 1 = 0)]
  rw [List.range_succ, List.flatMap_append]
  simp [h100, List.append_assoc]

/-- The receiver's progress reports on a sender-produced frame list coincide
with the sender's own progress reports. -/
lemma recvProgress_eq_senderProgress (file : FileRec) (fileId : String)
    (h : file.content ≠ []) :
    recvProgress (runReceiver initialReceiver
        (sendFileFrames true file fileId)).2 =
      senderProgress true file fileId := by
  rw [roundtrip_events file fileId h, senderProgress_eq]
  unfold recvProgress
  induction (List.range (totalChunksOf file.content.length)) with
  | nil => simp
  | cons k ks ih => simpa using ih

/-- `trySend` hands the chunk over at the first `bufferedAmount` reading at
or below the 16 MiB hard pause threshold; every earlier reading was above
the threshold. The 1 MiB notify threshold plays no role in this loop. -/
lemma trySendIndex_spec (bs : List Nat) :
    ∀ (i : Nat), trySendIndex bs = some i →
      (∃ b, bs.get? i = some b ∧ b ≤ HIGH_WATER) ∧
      ∀ j, j < i → ∃ b, bs.get? j = some b ∧ b > HIGH_WATER := by
  induction bs with
  | nil => intro i h; simp [trySendIndex] at h
  | cons b rest ih =>
      intro i h
      unfold trySendIndex at h
      by_cases hb : b > HIGH_WATER
      · rw [if_pos hb] at h
        cases hr : trySendIndex rest with
        | none => rw [hr] at h; simp at h
        | some i' =>
            rw [hr] at h
            simp only [Option.map_some'] at h
            obtain ⟨⟨c, hc1, hc2⟩, hj⟩ := ih i' hr
            cases h
            refine ⟨⟨c, by simpa using hc1, hc2⟩, ?_⟩
            intro j hj'
            cases j with
            | zero => exact ⟨b, rfl, hb⟩
            | succ j' =>
                obtain ⟨d, hd1, hd2⟩ := hj j' (by omega)
                exact ⟨d, by simpa using hd1, hd2⟩
      · rw [if_neg hb] at h
        simp only [Option.some.injEq] at h
        cases h
        exact ⟨⟨b, rfl, by omega⟩, by intro j hj; omega⟩

/-- Every `sendSignal` delivery happens within the retry budget, at a moment
the socket is open, after observing only `CONNECTING` states. -/
lemma sendSignalGo_delivered (states : Nat → WsState) :
    ∀ (budget attempt k : Nat),
      sendSignalGo states attempt budget = SendOutcome.delivered k →
      attempt ≤ k ∧ k ≤ attempt + budget ∧ states k = WsState.open' ∧
      ∀ j, attempt ≤ j → j < k → states j = WsState.connecting := by
  intro budget
  induction budget with
  | zero =>
      intro attempt k h
      unfold sendSignalGo at h
      by_cases hs : states attempt = WsState.open'
      · rw [if_pos hs] at h
        simp only [SendOutcome.delivered.injEq] at h
        cases h
        exact ⟨Nat.le_refl _, by omega, hs, fun j h1 h2 => by omega⟩
      · rw [if_neg hs] at h
        simp at h
  | succ b ih =>
      intro attempt k h
      unfold sendSignalGo at h
      by_cases hs : states attempt = WsState.open'
      · rw [if_pos hs] at h
        simp only [SendOutcome.delivered.injEq] at h
        cases h
        exact ⟨Nat.le_refl _, by omega, hs, fun j h1 h2 => by omega⟩
      · rw [if_neg hs] at h
        by_cases hc : states attempt = WsState.connecting
        · rw [if_pos hc] at h
          obtain ⟨h1, h2, h3, h4⟩ := ih (attempt + 1) k h
          refine ⟨by omega, by omega, h3, ?_⟩
          intro j hj1 hj2
          rcases Nat.eq_or_lt_of_le hj1 with hj | hj
          · rw [← hj]; exact hc
          · exact h4 j (by omega) hj2
        · rw [if_neg hc] at h
          simp at h

/-- Every `sendSignal` drop happens within the retry budget, at a moment the
socket is not open. -/
lemma sendSignalGo_dropped (states : Nat → WsState) :
    ∀ (budget attempt k : Nat),
      sendSignalGo states attempt budget = SendOutcome.dropped k →
      attempt ≤ k ∧ k ≤ attempt + budget ∧ states k ≠ WsState.open' := by
  intro budget
  induction budget with
  | zero =>
      intro attempt k h
      unfold sendSignalGo at h
      by_cases hs : states attempt = WsState.open'
      · rw [if_pos hs] at h; simp at h
      · rw [if_neg hs] at h
        simp only [SendOutcome.dropped.injEq] at h
        cases h
        exact ⟨Nat.le_refl _, by omega, hs⟩
  | succ b ih =>
      intro attempt k h
      unfold sendSignalGo at h
      by_cases hs : states attempt = WsState.open'
      · rw [if_pos hs] at h; simp at h
      · rw [if_neg hs] at h
        by_cases hc : states attempt = WsState.connecting
        · rw [if_pos hc] at h
          obtain ⟨h1, h2, h3⟩ := ih (attempt + 1) k h
          exact ⟨by omega, by omega, h3⟩
        · rw [if_neg hc] at h
          simp only [SendOutcome.dropped.injEq] at h
          cases h
          exact ⟨Nat.le_refl _, by omega, hs⟩

/-- The number of chunk frames `sendFile` emits equals
`Math.ceil(size / CHUNK_SIZE)`. -/
lemma sendFileFrames_chunkCount (file : FileRec) (fileId : String) :
    (sendFileFrames true file fileId).countP Frame.isChunk =
      totalChunksOf file.content.length := by
  have haux : ∀ n : Nat, List.countP
      (Frame.isChunk ∘ Frame.chunk ∘ fileChunk file.content)
      (List.range n) = n := by
    intro n
    induction n with
    | zero => simp
    | succ n ih =>
        rw [List.range_succ, List.countP_append, ih]
        simp [Frame.isChunk, Function.comp]
  rw [sendFileFrames_eq]
  by_cases h0 : totalChunksOf file.content.length = 0 <;>
    simp [h0, List.countP_cons, List.countP_append, List.countP_map,
      Frame.isChunk, senderChunks, Function.comp, haux]

lemma totalChunksOf_40000 : totalChunksOf 40000 = 3 := by
  simp only [totalChunksOf, chunk_size_eq]

/-- Name used in the end-to-end example of the specification. -/
def reportName : String := "report.bin"

/-- A MIME type used in concrete instances. -/
def reportTy : String := "application"

/-- Sending a 40000-byte file named like the spec's end-to-end example and
feeding the frames to a fresh receiver: metadata with `totalChunks = 3`,
then the receiver progress values 33, 66, 100 (floor division), then
completion with the original 40000-byte payload. -/
lemma events_40000 (content : List Nat) (ty fileId : String)
    (h : content.length = 40000) :
    runReceiver initialReceiver
        (sendFileFrames true
          { name := reportName, type := ty, content := content } fileId) =
      (initialReceiver,
       [RecvEvent.fileInfo
          { fileId := fileId, name := reportName, size := 40000, type := ty,
            totalChunks := 3 },
        RecvEvent.progress 33, RecvEvent.progress 66, RecvEvent.progress 100,
        RecvEvent.complete content
          { fileId := fileId, name := reportName, size := 40000, type := ty,
            totalChunks := 3 }]) := by
  have hne : content ≠ [] := by
    intro hc
    rw [hc] at h
    simp at h
  rw [roundtrip_events { name := reportName, type := ty, content := content }
    fileId hne]
  have hmap : (List.range (totalChunksOf 40000)).map
      (fun k => RecvEvent.progress ((k + 1) * 100 / totalChunksOf 40000)) =
      [RecvEvent.progress 33, RecvEvent.progress 66, RecvEvent.progress 100] := by
    rw [totalChunksOf_40000]
    rfl
  have hmap3 : (List.range 3).map (fun k => RecvEvent.progress ((k + 1) * 100 / 3)) =
      [RecvEvent.progress 33, RecvEvent.progress 66, RecvEvent.progress 100] := rfl
  simp [metaOf, h, hmap3, totalChunksOf_40000]

/-! ### Concrete instances used by witnesses and counterexamples -/

/-- A fixed transfer id. -/
def exFileId : String := "1"

/-- A second transfer id. -/
def exFileId2 : String := "2"

/-- A two-byte file: one chunk. -/
def exFile : FileRec := { name := "hi.txt", type := "text", content := [104, 105] }

/-- A three-byte file used for the second concurrent call. -/
def exFile2 : FileRec := { name := "b.bin", type := "bin", content := [7, 8, 9] }

/-- The zero-byte file. -/
def emptyFile : FileRec := { name := "empty.bin", type := "bin", content := [] }

/-- The 40000 bytes of the end-to-end example file. -/
def reportContent : List Nat := List.replicate 40000 0

/-- A 40000-byte file named as in the spec's end-to-end example. -/
def report40000 : FileRec :=
  { name := reportName, type := reportTy, content := reportContent }

lemma reportContent_length : reportContent.length = 40000 := by
  rw [reportContent, List.length_replicate]

/-- Peer identity of the offerer in concrete instances. -/
def p1 : String := "p1"

/-- Peer identity of the local session in concrete instances. -/
def p2 : String := "p2"

/-- A foreign recipient identity. -/
def px : String := "px"

/-- An idle session: no peer connection yet. -/
def exIdle : SessionState :=
  { peerId := p2, remoteId := none, peerConnection := false }

/-- An offer envelope addressed to the local session. -/
def exOffer : SignalMsg := { type := SignalType.offer, from' := p1, to' := p2 }

/-- A candidate envelope addressed to the local session. -/
def exCand : SignalMsg :=
  { type := SignalType.candidate, from' := p1, to' := p2 }

/-- An envelope addressed to some other peer. -/
def exForeign : SignalMsg := { type := SignalType.offer, from' := p1, to' := px }

/-- A WebSocket that stays connecting for three polls, then is open. -/
def exStates : Nat → WsState :=
  fun n => if n < 3 then WsState.connecting else WsState.open'

/-- A WebSocket that is open immediately. -/
def exStatesOpen : Nat → WsState := fun _ => WsState.open'

/-- A WebSocket that never leaves the connecting state. -/
def exStatesStuck : Nat → WsState := fun _ => WsState.connecting

/-- Buffered-amount readings: one above the hard threshold, then drained. -/
def exBuffers : List Nat := [16 * 1024 * 1024 + 5, 1000]

/-- Whether a sender event is the completion frame being handed over. -/
def SendEvent.isCompleteFrame : SendEvent → Bool
  | .frameSent (Frame.fileComplete _) => true
  | _ => false

/-- Whether a sender event is a progress report of exactly 100. -/
def SendEvent.isProg100 : SendEvent → Bool
  | .progress p => p == 100
  | _ => false

/-- Scans a sender trace left to right, tracking whether a completion frame
has already been queued (`seen`), and checks that every progress report of
exactly 100 happens only strictly after that: the ordering asserted by
claim C3. -/
def reports100OnlyAfterComplete (seen : Bool) : List SendEvent → Bool
  | [] => true
  | e :: rest =>
      (!e.isProg100 || seen) &&
        reports100OnlyAfterComplete (seen || e.isCompleteFrame) rest

/-! ### Claim theorems -/

/-- C1 (amended): for every file with at least one byte, sending over an
open channel with in-order reliable delivery and feeding the emitted frames
to the receiver yields exactly one completion event whose payload is
byte-for-byte the original content, and the number of chunk frames is
ceil(S / 16384). The amendment excludes the zero-byte file: there the
sender never emits a completion frame, so the receiver never reconstructs a
payload (see the counterexample and claim C10). -/
theorem C1_roundtrip (file : FileRec) (fileId : String)
    (h : file.content ≠ []) :
    completePayloads (runReceiver initialReceiver
        (sendFileFrames true file fileId)).2 = [file.content] ∧
    (sendFileFrames true file fileId).countP Frame.isChunk =
      (file.content.length + CHUNK_SIZE - 1) / CHUNK_SIZE := by
  constructor
  · rw [roundtrip_events file fileId h]
    simp only [completePayloads, List.filterMap_cons, List.filterMap_append,
      List.filterMap_map]
    simp [Function.comp]
  · rw [sendFileFrames_chunkCount]
    rfl

/-- Witness for C1 at a concrete two-byte file. -/
theorem C1_roundtrip_witness :
    exFile.content ≠ [] ∧
    (completePayloads (runReceiver initialReceiver
        (sendFileFrames true exFile exFileId)).2 = [exFile.content] ∧
    (sendFileFrames true exFile exFileId).countP Frame.isChunk =
      (exFile.content.length + CHUNK_SIZE - 1) / CHUNK_SIZE) :=
  ⟨by decide, C1_roundtrip exFile exFileId (by decide)⟩

/-- Counterexample to C1 as stated: for the zero-byte file the run fires no
completion event at all, so no payload — not even the empty one — is ever
handed back by the receiver. -/
theorem C1_counterexample :
    completePayloads (runReceiver initialReceiver
        (sendFileFrames true emptyFile exFileId)).2 ≠ [emptyFile.content] := by
  decide

/-- C2 (amended): a 40000-byte file named "report.bin" sent over an open
channel yields totalChunks = 3, the receiver fires onFileInfo (the spec's
onMetadata) with name "report.bin", size 40000, totalChunks 3, then the
per-chunk progress sequence is exactly 33, 66, 100 (floor division — not
34, 67, 100 as the claim states), then completion with the 40000-byte
payload. -/
theorem C2_example_transfer (content : List Nat) (ty fileId : String)
    (h : content.length = 40000) :
    runReceiver initialReceiver
        (sendFileFrames true
          { name := reportName, type := ty, content := content } fileId) =
      (initialReceiver,
       [RecvEvent.fileInfo
          { fileId := fileId, name := reportName, size := 40000, type := ty,
            totalChunks := 3 },
        RecvEvent.progress 33, RecvEvent.progress 66, RecvEvent.progress 100,
        RecvEvent.complete content
          { fileId := fileId, name := reportName, size := 40000, type := ty,
            totalChunks := 3 }]) :=
  events_40000 content ty fileId h

/-- Witness for C2 at the concrete 40000-byte file. -/
theorem C2_example_transfer_witness :
    reportContent.length = 40000 ∧
    runReceiver initialReceiver
        (sendFileFrames true
          { name := reportName, type := reportTy,
            content := reportContent } exFileId) =
      (initialReceiver,
       [RecvEvent.fileInfo
          { fileId := exFileId, name := reportName, size := 40000,
            type := reportTy, totalChunks := 3 },
        RecvEvent.progress 33, RecvEvent.progress 66, RecvEvent.progress 100,
        RecvEvent.complete reportContent
          { fileId := exFileId, name := reportName, size := 40000,
            type := reportTy, totalChunks := 3 }]) :=
  ⟨reportContent_length,
   C2_example_transfer reportContent reportTy exFileId reportContent_length⟩

/-- Counterexample to C2 as stated: the receiver's progress sequence for
the 40000-byte transfer is 33, 66, 100, not 34, 67, 100. -/
theorem C2_counterexample :
    recvProgress (runReceiver initialReceiver
        (sendFileFrames true report40000 exFileId)).2 ≠ [34, 67, 100] := by
  have h2 : report40000 =
      { name := reportName, type := reportTy, content := reportContent } := rfl
  rw [h2, events_40000 reportContent reportTy exFileId reportContent_length]
  decide

/-- C3 (amended): for every transfer with at least one chunk, the progress
sequence reported by the sender is monotonically non-decreasing and attains
100 exactly once, the receiver's progress sequence is identical to the
sender's, and the single 100 report is issued immediately BEFORE the
completion frame is queued (the trace ends with progress 100 followed by
the file-complete frame) — not after the completion frame as the claim
states, and with the zero-chunk transfer excluded since it reports no
progress at all. -/
theorem C3_progress (file : FileRec) (fileId : String)
    (h : file.content ≠ []) :
    (senderProgress true file fileId).Pairwise (· ≤ ·) ∧
    (senderProgress true file fileId).count 100 = 1 ∧
    recvProgress (runReceiver initialReceiver
        (sendFileFrames true file fileId)).2 =
      senderProgress true file fileId ∧
    ∃ pre, senderTrace true file fileId =
      pre ++ [SendEvent.progress 100,
              SendEvent.frameSent (Frame.fileComplete fileId)] := by
  have hpos : 0 < totalChunksOf file.content.length :=
    totalChunksOf_pos _ (List.length_pos.mpr h)
  obtain ⟨n, hn⟩ := Nat.exists_eq_succ_of_ne_zero (Nat.pos_iff_ne_zero.mp hpos)
  refine ⟨?_, ?_, recvProgress_eq_senderProgress file fileId h,
    senderTrace_ends file fileId h⟩
  · rw [senderProgress_eq]
    exact progressVals_pairwise _
  · rw [senderProgress_eq, hn]
    simpa [Nat.succ_eq_add_one] using progressVals_count_100 n

/-- Witness for C3 at a concrete one-chunk file. -/
theorem C3_progress_witness :
    exFile.content ≠ [] ∧
    ((senderProgress true exFile exFileId).Pairwise (· ≤ ·) ∧
    (senderProgress true exFile exFileId).count 100 = 1 ∧
    recvProgress (runReceiver initialReceiver
        (sendFileFrames true exFile exFileId)).2 =
      senderProgress true exFile exFileId ∧
    ∃ pre, senderTrace true exFile exFileId =
      pre ++ [SendEvent.progress 100,
              SendEvent.frameSent (Frame.fileComplete exFileId)]) :=
  ⟨by decide, C3_progress exFile exFileId (by decide)⟩

/-- Counterexample to C3 as stated: in the sender trace of a one-chunk
file, the 100 progress report is NOT preceded by a queued completion frame
— the code reports 100 first (rtc.ts line 195) and only then queues the
completion frame (line 200). -/
theorem C3_counterexample :
    ¬ reports100OnlyAfterComplete false (senderTrace true exFile exFileId)
        = true := by
  decide

/-- C4 (amended): whenever `trySend` observes a bufferedAmount reading
above the 16 MiB hard pause threshold it defers, and the chunk is handed to
the channel exactly at the first reading at or below 16 MiB — the 50 ms
polling path resumes as soon as the buffer is at or below the HARD
threshold, without waiting for drainage below the 1 MiB notify threshold as
the claim states (the notify threshold only arms the event-driven
`onbufferedamountlow` resume of `sendNextChunk`). -/
theorem C4_backpressure (bs : List Nat) (i : Nat)
    (h : trySendIndex bs = some i) :
    (∃ b, bs.get? i = some b ∧ b ≤ HIGH_WATER) ∧
    ∀ j, j < i → ∃ b, bs.get? j = some b ∧ b > HIGH_WATER :=
  trySendIndex_spec bs i h

/-- Witness for C4 at concrete readings. -/
theorem C4_backpressure_witness :
    trySendIndex exBuffers = some 1 ∧
    ((∃ b, exBuffers.get? 1 = some b ∧ b ≤ HIGH_WATER) ∧
     ∀ j, j < 1 → ∃ b, exBuffers.get? j = some b ∧ b > HIGH_WATER) :=
  ⟨by decide, C4_backpressure exBuffers 1 (by decide)⟩

/-- Counterexample to C4 as stated: with readings 16 MiB + 1 then 2 MiB,
the chunk is handed over at the second reading, which is not below the
1 MiB notify threshold — drainage below 1 MiB is not required by the
polling resume path. -/
theorem C4_counterexample :
    trySendIndex [HIGH_WATER + 1, 2 * 1024 * 1024] = some 1 ∧
    HIGH_WATER + 1 > HIGH_WATER ∧
    ¬ 2 * 1024 * 1024 < bufferedAmountLowThreshold := by
  decide

/-- C5 (amended): calling sendFile when the channel is not open is a no-op
with a logged warning — no events, no frames, no exception (the model is a
total function). There is, however, no guard for a transfer already in
flight: the code (rtc.ts lines 135-138) checks only
`dataChannel.readyState`, and nothing in the class tracks an outbound
transfer in progress, so the frames emitted by a call depend only on the
channel state and the file — a second call on an open channel while a
previous transfer is in flight emits its frames rather than being a
no-op. -/
theorem C5_guard (file : FileRec) (fileId : String) :
    senderTrace false file fileId = [] ∧
    sendFileFrames true file fileId ≠ [] := by
  constructor
  · simp [senderTrace]
  · rw [sendFileFrames_eq]
    simp

/-- Counterexample to C5 as stated: a sendFile call on an open channel
emits frames unconditionally — the emission (a function only of the channel
state, the file and the id, since the code keeps no in-flight flag) is
nonempty even when another transfer from this side is in flight, so the
call is not a no-op in that case. -/
theorem C5_counterexample : sendFileFrames true exFile2 exFileId2 ≠ [] := by
  decide

/-- C6 (confirmed): when no transfer is in progress (no metadata frame
received since the last reset, i.e. `receivingFile` is unset), processing a
completion frame fires no event and leaves the receiver state unchanged
(rtc.ts lines 237-238). -/
theorem C6_complete_noop (s : ReceiverState) (fileId : String)
    (h : s.receivingFile = none) :
    handleFrame s (Frame.fileComplete fileId) = (s, []) := by
  simp [handleFrame, h]

/-- Witness for C6 at a state holding orphan chunks but no metadata. -/
theorem C6_complete_noop_witness :
    (⟨[[1, 2]], 5, none⟩ : ReceiverState).receivingFile = none ∧
    handleFrame ⟨[[1, 2]], 5, none⟩ (Frame.fileComplete exFileId) =
      (⟨[[1, 2]], 5, none⟩, []) :=
  ⟨rfl, C6_complete_noop ⟨[[1, 2]], 5, none⟩ exFileId rfl⟩

/-- C7 (confirmed): in the Idle state (no peer connection yet), an offer
envelope addressed to the local identity moves the session to Negotiating
(the peer connection is created) and sets the remote identity to the
envelope's sender, while a candidate envelope with no prior offer or answer
changes nothing: `addIceCandidate` is reached through optional chaining on
an absent peer connection and no session field is touched. -/
theorem C7_offer_vs_candidate (s : SessionState) (m : SignalMsg)
    (hidle : s.peerConnection = false) (hto : m.to' = s.peerId) :
    (m.type = SignalType.offer →
      handleSignal s m =
        ({ s with remoteId := some m.from', peerConnection := true },
         [{ type := SignalType.answer, from' := s.peerId, to' := m.from' }])) ∧
    (m.type = SignalType.candidate → handleSignal s m = (s, [])) := by
  constructor <;> intro ht <;> simp [handleSignal, hto, ht]

/-- Witness for C7: peer p2, idle, receiving an offer and a candidate
from p1. -/
theorem C7_offer_vs_candidate_witness :
    handleSignal exIdle exOffer =
      ({ peerId := p2, remoteId := some p1, peerConnection := true },
       [{ type := SignalType.answer, from' := p2, to' := p1 }]) ∧
    handleSignal exIdle exCand = (exIdle, []) :=
  ⟨(C7_offer_vs_candidate exIdle exOffer rfl rfl).1 rfl,
   (C7_offer_vs_candidate exIdle exCand rfl rfl).2 rfl⟩

/-- C8 (confirmed): any envelope whose `to` field differs from the local
identity is discarded before any processing (rtc.ts line 112): no state
change, no outbound envelope, no event. -/
theorem C8_foreign_discarded (s : SessionState) (m : SignalMsg)
    (h : m.to' ≠ s.peerId) :
    handleSignal s m = (s, []) := by
  simp [handleSignal, h]

/-- Witness for C8 at a concrete misaddressed envelope. -/
theorem C8_foreign_discarded_witness :
    exForeign.to' ≠ exIdle.peerId ∧
    handleSignal exIdle exForeign = (exIdle, []) :=
  ⟨by decide, C8_foreign_discarded exIdle exForeign (by decide)⟩

/-- If the socket is open at the current attempt, the message is sent at
once, whatever the remaining budget. -/
lemma sendSignalGo_immediate (states : Nat → WsState) (attempt budget : Nat)
    (h : states attempt = WsState.open') :
    sendSignalGo states attempt budget = SendOutcome.delivered attempt := by
  cases budget <;> (unfold sendSignalGo; rw [if_pos h])

/-- C9 (confirmed): a sendSignal invocation delivers immediately when the
relay socket is open; every delivery happens at an attempt index at most
MAX_RETRIES = 20 at a moment the socket is open, with every earlier attempt
having observed CONNECTING (each 100 ms apart); and every drop happens at
an attempt index at most 20 at a moment the socket is not open — so the
call terminates after a bounded number of attempts and each envelope is
either delivered once or dropped. -/
theorem C9_sendSignal_bounded (states : Nat → WsState) :
    (states 0 = WsState.open' →
      sendSignalModel states = SendOutcome.delivered 0) ∧
    (∀ k, sendSignalModel states = SendOutcome.delivered k →
      k ≤ MAX_RETRIES ∧ states k = WsState.open' ∧
      ∀ j, j < k → states j = WsState.connecting) ∧
    (∀ k, sendSignalModel states = SendOutcome.dropped k →
      k ≤ MAX_RETRIES ∧ states k ≠ WsState.open') := by
  refine ⟨?_, ?_, ?_⟩
  · intro h
    exact sendSignalGo_immediate states 0 MAX_RETRIES h
  · intro k h
    obtain ⟨h1, h2, h3, h4⟩ := sendSignalGo_delivered states MAX_RETRIES 0 k h
    exact ⟨by omega, h3, fun j hj => h4 j (by omega) hj⟩
  · intro k h
    obtain ⟨h1, h2, h3⟩ := sendSignalGo_dropped states MAX_RETRIES 0 k h
    exact ⟨by omega, h3⟩

/-- Witness for C9: an immediately-open socket delivers at attempt 0; a
socket open from the fourth poll delivers at attempt 3; a socket stuck in
CONNECTING drops at attempt 20. -/
theorem C9_sendSignal_bounded_witness :
    sendSignalModel exStatesOpen = SendOutcome.delivered 0 ∧
    (3 ≤ MAX_RETRIES ∧ exStates 3 = WsState.open' ∧
      ∀ j, j < 3 → exStates j = WsState.connecting) ∧
    (20 ≤ MAX_RETRIES ∧ exStatesStuck 20 ≠ WsState.open') :=
  ⟨(C9_sendSignal_bounded exStatesOpen).1 rfl,
   (C9_sendSignal_bounded exStates).2.1 3 (by decide),
   (C9_sendSignal_bounded exStatesStuck).2.2 20 (by decide)⟩

/-- The zero-byte file with the given name and MIME type. -/
def zeroFile (name ty : String) : FileRec :=
  { name := name, type := ty, content := [] }

/-- The metadata the sender computes for a zero-byte file:
`totalChunks = 0`. -/
def zeroMeta (name ty fileId : String) : FileMeta :=
  { fileId := fileId, name := name, size := 0, type := ty, totalChunks := 0 }

/-- C10 (confirmed): a zero-byte file on an open channel produces exactly
the metadata frame with totalChunks = 0 — no chunk frame, no completion
frame, no progress report — and the receiver, left waiting with the
metadata recorded, never fires onComplete for that transfer. -/
theorem C10_zero_byte (name ty fileId : String) :
    sendFileFrames true (zeroFile name ty) fileId =
      [Frame.fileInfo (zeroMeta name ty fileId)] ∧
    senderProgress true (zeroFile name ty) fileId = [] ∧
    runReceiver initialReceiver
        (sendFileFrames true (zeroFile name ty) fileId) =
      (ReceiverState.mk [] 0 (some (zeroMeta name ty fileId)),
       [RecvEvent.fileInfo (zeroMeta name ty fileId)]) ∧
    completePayloads (runReceiver initialReceiver
        (sendFileFrames true (zeroFile name ty) fileId)).2 = [] := by
  have hf : sendFileFrames true (zeroFile name ty) fileId =
      [Frame.fileInfo (zeroMeta name ty fileId)] := by
    rw [sendFileFrames_eq]
    simp [totalChunksOf_zero, senderChunks, metaOf, zeroFile, zeroMeta]
  refine ⟨hf, ?_, ?_, ?_⟩
  · rw [senderProgress_eq]
    simp [totalChunksOf_zero, zeroFile]
  · rw [hf]
    simp [runReceiver, handleFrame, zeroMeta]
  · rw [hf]
    simp [runReceiver, handleFrame, completePayloads]
